import Mathlib

/-!
Shallow embedding of the costing core of the `xcpstarter` repository
(`src/utils.py` and `src/app.py`).

Python floats are modelled as exact rationals (`ℚ`); code that raises is
modelled with `Except String`; SQLAlchemy relationships are modelled by
embedding the referenced records directly in the referencing structure.
-/

/-- The Python `str.lower` method, modelled as a character-wise map.  The unit strings
this program handles are ASCII, where `Char.toLower` agrees with Python. -/
def lower (s : String) : String := String.mk (s.data.map Char.toLower)

deriving instance DecidableEq for Except

/-- Model of `WEIGHT_FACTORS` from utils.py line 2: grams per unit for mass units. -/
def WEIGHT_FACTORS : List (String × ℚ) :=
  [("g", 1), ("kg", 1000), ("oz", 28349523125 / 1000000000), ("lb", 45359237 / 100000)]

/-- Model of `VOLUME_FACTORS` from utils.py line 3: milliliters per unit for volume units. -/
def VOLUME_FACTORS : List (String × ℚ) :=
  [("ml", 1), ("l", 1000)]

/-- Model of `same_dimension` from utils.py lines 5-7: lowercases both unit strings and
checks that both are mass units or both are volume units. -/
def same_dimension (u1 u2 : String) : Bool :=
  let v1 := lower u1
  let v2 := lower u2
  ((WEIGHT_FACTORS.lookup v1).isSome && (WEIGHT_FACTORS.lookup v2).isSome)
    || ((VOLUME_FACTORS.lookup v1).isSome && (VOLUME_FACTORS.lookup v2).isSome)

/-- Model of `_to_base` from utils.py lines 9-13: value scaled to the base unit
(grams or milliliters); raises on unsupported units. -/
def to_base (value : ℚ) (unit : String) : Except String ℚ :=
  let u := lower unit
  match WEIGHT_FACTORS.lookup u with
  | some f => .ok (value * f)
  | none =>
    match VOLUME_FACTORS.lookup u with
    | some f => .ok (value * f)
    | none => .error ("Unsupported unit: " ++ u)

/-- Model of `convert` from utils.py lines 15-20.  The Python divisor
`WEIGHT_FACTORS.get(to_unit) or VOLUME_FACTORS.get(to_unit)` is modelled with
`Option.orElse`; this is faithful because every table entry is nonzero, so the
Python `or` falls through exactly when the first lookup misses.  The final
`none` branch models the `TypeError` Python would raise dividing by `None`;
it is unreachable because the `same_dimension` guard has already passed. -/
def convert (value : ℚ) (from_unit to_unit : String) : Except String ℚ :=
  let fu := lower from_unit
  let tu := lower to_unit
  if fu = tu then .ok value
  else if same_dimension fu tu then
    match to_base value fu with
    | .error e => .error e
    | .ok base =>
      match (WEIGHT_FACTORS.lookup tu).orElse (fun _ => VOLUME_FACTORS.lookup tu) with
      | some f => .ok (base / f)
      | none => .error "unsupported target unit"
  else .error "Unit types do not match"

/-- Model of `unit_cost_in` from utils.py lines 22-26: rebases a per-item-unit cost to a
per-target-unit cost; returns the cost unchanged when the two units agree
case-insensitively. -/
def unit_cost_in (unit_cost : ℚ) (item_unit target_unit : String) : Except String ℚ :=
  if lower item_unit = lower target_unit then .ok unit_cost
  else
    match convert 1 target_unit item_unit with
    | .error e => .error e
    | .ok one_target_in_item => .ok (unit_cost * one_target_in_item)

/-- The mass-unit partition named by the spec: {g, kg, oz, lb}. -/
def massUnits : List String := ["g", "kg", "oz", "lb"]

/-- The volume-unit partition named by the spec: {ml, l}. -/
def volumeUnits : List String := ["ml", "l"]

/-- A successful mass-table lookup means the key is one of the four mass units. -/
lemma lookup_weight_mem {u : String} {f : ℚ} (h : WEIGHT_FACTORS.lookup u = some f) :
    u = "g" ∨ u = "kg" ∨ u = "oz" ∨ u = "lb" := by
  simp only [WEIGHT_FACTORS, List.lookup] at h
  split at h
  · next hg => exact Or.inl (eq_of_beq hg)
  · split at h
    · next hk => exact Or.inr (Or.inl (eq_of_beq hk))
    · split at h
      · next ho => exact Or.inr (Or.inr (Or.inl (eq_of_beq ho)))
      · split at h
        · next hl => exact Or.inr (Or.inr (Or.inr (eq_of_beq hl)))
        · exact absurd h (by simp)

/-- A successful volume-table lookup means the key is one of the two volume units. -/
lemma lookup_volume_mem {u : String} {f : ℚ} (h : VOLUME_FACTORS.lookup u = some f) :
    u = "ml" ∨ u = "l" := by
  simp only [VOLUME_FACTORS, List.lookup] at h
  split at h
  · next hm => exact Or.inl (eq_of_beq hm)
  · split at h
    · next hl => exact Or.inr (eq_of_beq hl)
    · exact absurd h (by simp)

/-- Every mass conversion factor is nonzero. -/
lemma weight_factor_nonzero {u : String} {f : ℚ} (h : WEIGHT_FACTORS.lookup u = some f) :
    f ≠ 0 := by
  rcases lookup_weight_mem h with h' | h' | h' | h' <;> subst h' <;>
    simp [WEIGHT_FACTORS, List.lookup] at h <;> subst h <;> norm_num

/-- Every volume conversion factor is nonzero. -/
lemma volume_factor_nonzero {u : String} {f : ℚ} (h : VOLUME_FACTORS.lookup u = some f) :
    f ≠ 0 := by
  rcases lookup_volume_mem h with h' | h' <;> subst h' <;>
    simp [VOLUME_FACTORS, List.lookup] at h <;> subst h <;> norm_num

/-- Lowercasing is the identity on mass-table keys. -/
lemma lower_weight_key {u : String} {f : ℚ} (h : WEIGHT_FACTORS.lookup u = some f) :
    lower u = u := by
  rcases lookup_weight_mem h with h' | h' | h' | h' <;> subst h' <;> decide

/-- Lowercasing is the identity on volume-table keys. -/
lemma lower_volume_key {u : String} {f : ℚ} (h : VOLUME_FACTORS.lookup u = some f) :
    lower u = u := by
  rcases lookup_volume_mem h with h' | h' <;> subst h' <;> decide

/-- A volume-table key is never a mass-table key. -/
lemma weight_lookup_none_of_volume {u : String} {f : ℚ}
    (h : VOLUME_FACTORS.lookup u = some f) : WEIGHT_FACTORS.lookup u = none := by
  rcases lookup_volume_mem h with h' | h' <;> subst h' <;> decide

/-- A mass-table key is never a volume-table key. -/
lemma volume_lookup_none_of_weight {u : String} {f : ℚ}
    (h : WEIGHT_FACTORS.lookup u = some f) : VOLUME_FACTORS.lookup u = none := by
  rcases lookup_weight_mem h with h' | h' | h' | h' <;> subst h' <;> decide

/-- Evaluation of `convert` between two distinct mass units multiplies by the source factor
and divides by the target factor. -/
lemma convert_eval_weight {a b : String} {fa fb : ℚ} (x : ℚ)
    (ha : WEIGHT_FACTORS.lookup (lower a) = some fa)
    (hb : WEIGHT_FACTORS.lookup (lower b) = some fb)
    (hne : lower a ≠ lower b) :
    convert x a b = .ok (x * fa / fb) := by
  have hia : lower (lower a) = lower a := lower_weight_key ha
  have hib : lower (lower b) = lower b := lower_weight_key hb
  have hsd : same_dimension (lower a) (lower b) = true := by
    simp only [same_dimension]
    rw [hia, hib, ha, hb]
    simp
  simp only [convert, to_base]
  rw [if_neg hne, if_pos hsd, hia, ha, hb]
  rfl

/-- Evaluation of `convert` between two distinct volume units multiplies by the source factor
and divides by the target factor. -/
lemma convert_eval_volume {a b : String} {fa fb : ℚ} (x : ℚ)
    (ha : VOLUME_FACTORS.lookup (lower a) = some fa)
    (hb : VOLUME_FACTORS.lookup (lower b) = some fb)
    (hne : lower a ≠ lower b) :
    convert x a b = .ok (x * fa / fb) := by
  have hia : lower (lower a) = lower a := lower_volume_key ha
  have hib : lower (lower b) = lower b := lower_volume_key hb
  have hsd : same_dimension (lower a) (lower b) = true := by
    simp only [same_dimension]
    rw [hia, hib, ha, hb, weight_lookup_none_of_volume ha, weight_lookup_none_of_volume hb]
    simp
  simp only [convert, to_base]
  rw [if_neg hne, if_pos hsd, hia, weight_lookup_none_of_volume ha, ha,
    weight_lookup_none_of_volume hb, hb]
  rfl

/-- C7. For every value and every pair of same-dimension units, converting and
then converting back returns the original value (round-trip identity). -/
theorem convert_round_trip (x y : ℚ) (a b : String)
    (hsd : same_dimension a b = true) (h1 : convert x a b = .ok y) :
    convert y b a = .ok x := by
  by_cases heq : lower a = lower b
  · have hx : convert x a b = .ok x := by simp [convert, heq]
    rw [hx] at h1
    obtain rfl : x = y := by injection h1
    simp [convert, heq.symm]
  · simp only [same_dimension, Bool.or_eq_true, Bool.and_eq_true,
      Option.isSome_iff_exists] at hsd
    rcases hsd with ⟨⟨fa, ha⟩, ⟨fb, hb⟩⟩ | ⟨⟨fa, ha⟩, ⟨fb, hb⟩⟩
    · rw [convert_eval_weight x ha hb heq] at h1
      obtain rfl : x * fa / fb = y := by injection h1
      rw [convert_eval_weight (x * fa / fb) hb ha (Ne.symm heq)]
      have hfa := weight_factor_nonzero ha
      have hfb := weight_factor_nonzero hb
      congr 1
      field_simp
    · rw [convert_eval_volume x ha hb heq] at h1
      obtain rfl : x * fa / fb = y := by injection h1
      rw [convert_eval_volume (x * fa / fb) hb ha (Ne.symm heq)]
      have hfa := volume_factor_nonzero ha
      have hfb := volume_factor_nonzero hb
      congr 1
      field_simp

/-- Witness for `convert_round_trip` at x = 2, a = "g", b = "kg". -/
theorem convert_round_trip_witness :
    same_dimension "g" "kg" = true ∧ convert 2 "g" "kg" = .ok (1 / 500) ∧
      convert (1 / 500 : ℚ) "kg" "g" = .ok 2 := by
  have hgkg : convert 2 "g" "kg" = .ok (1 / 500) := by
    have h := @convert_eval_weight "g" "kg" 1 1000 2 (by decide) (by decide) (by decide)
    rw [h]
    norm_num
  exact ⟨by decide, hgkg, convert_round_trip 2 (1 / 500) "g" "kg" (by decide) hgkg⟩

/-- C6. Converting between a mass unit and a volume unit (in either order)
raises rather than returning a value. -/
theorem convert_cross_dimension_fails (x : ℚ) (u1 u2 : String)
    (h : ((WEIGHT_FACTORS.lookup (lower u1)).isSome ∧ (VOLUME_FACTORS.lookup (lower u2)).isSome) ∨
      ((VOLUME_FACTORS.lookup (lower u1)).isSome ∧ (WEIGHT_FACTORS.lookup (lower u2)).isSome)) :
    convert x u1 u2 = .error "Unit types do not match" := by
  rcases h with ⟨h1, h2⟩ | ⟨h1, h2⟩ <;>
    rw [Option.isSome_iff_exists] at h1 h2 <;>
    obtain ⟨fa, ha⟩ := h1 <;> obtain ⟨fb, hb⟩ := h2
  · have hne : lower u1 ≠ lower u2 := by
      intro he
      rw [he, weight_lookup_none_of_volume hb] at ha
      exact absurd ha (by simp)
    have hsd : same_dimension (lower u1) (lower u2) = false := by
      simp only [same_dimension]
      rw [lower_weight_key ha, lower_volume_key hb, ha, hb,
        weight_lookup_none_of_volume hb, volume_lookup_none_of_weight ha]
      simp
    simp [convert, hne, hsd]
  · have hne : lower u1 ≠ lower u2 := by
      intro he
      rw [he] at ha
      rw [weight_lookup_none_of_volume ha] at hb
      exact absurd hb (by simp)
    have hsd : same_dimension (lower u1) (lower u2) = false := by
      simp only [same_dimension]
      rw [lower_volume_key ha, lower_weight_key hb, ha, hb,
        weight_lookup_none_of_volume ha, volume_lookup_none_of_weight hb]
      simp
    simp [convert, hne, hsd]

/-- Witness for `convert_cross_dimension_fails` at "g" vs "ml". -/
theorem convert_cross_dimension_fails_witness :
    convert 5 "g" "ml" = .error "Unit types do not match" :=
  convert_cross_dimension_fails 5 "g" "ml" (Or.inl ⟨by decide, by decide⟩)

/-- The mass table has an entry exactly for the four mass-unit strings. -/
lemma weight_isSome_eq_contains (u : String) :
    (WEIGHT_FACTORS.lookup u).isSome = massUnits.contains u := by
  by_cases h1 : u = "g"
  · subst h1; rfl
  · by_cases h2 : u = "kg"
    · subst h2; rfl
    · by_cases h3 : u = "oz"
      · subst h3; rfl
      · by_cases h4 : u = "lb"
        · subst h4; rfl
        · have b1 : (u == "g") = false := by simp [h1]
          have b2 : (u == "kg") = false := by simp [h2]
          have b3 : (u == "oz") = false := by simp [h3]
          have b4 : (u == "lb") = false := by simp [h4]
          simp [WEIGHT_FACTORS, massUnits, List.lookup, List.contains, List.elem,
            b1, b2, b3, b4]

/-- The volume table has an entry exactly for the two volume-unit strings. -/
lemma volume_isSome_eq_contains (u : String) :
    (VOLUME_FACTORS.lookup u).isSome = volumeUnits.contains u := by
  by_cases h1 : u = "ml"
  · subst h1; rfl
  · by_cases h2 : u = "l"
    · subst h2; rfl
    · have b1 : (u == "ml") = false := by simp [h1]
      have b2 : (u == "l") = false := by simp [h2]
      simp [VOLUME_FACTORS, volumeUnits, List.lookup, List.contains, List.elem, b1, b2]

/-- C8. The check `same_dimension` is true exactly when both (lowercased) units lie in
the same partition, mass {g, kg, oz, lb} or volume {ml, l}; in particular
g/lb agree and g/ml do not. -/
theorem same_dimension_partition :
    (∀ u1 u2 : String, same_dimension u1 u2 =
      ((massUnits.contains (lower u1) && massUnits.contains (lower u2))
        || (volumeUnits.contains (lower u1) && volumeUnits.contains (lower u2)))) ∧
    same_dimension "g" "lb" = true ∧ same_dimension "g" "ml" = false := by
  refine ⟨fun u1 u2 => ?_, by decide, by decide⟩
  simp only [same_dimension, weight_isSome_eq_contains, volume_isSome_eq_contains]

/-- C10. Both `convert` and `unit_cost_in` return their input unchanged whenever the
two unit arguments agree up to case, with no validation that the unit is
supported. -/
theorem convert_same_unit_identity :
    (∀ (x : ℚ) (u : String), convert x u u = .ok x) ∧
    (∀ (c : ℚ) (u : String), unit_cost_in c u u = .ok c) ∧
    (∀ (x c : ℚ) (u1 u2 : String), lower u1 = lower u2 →
      convert x u1 u2 = .ok x ∧ unit_cost_in c u1 u2 = .ok c) :=
  ⟨fun x u => by simp [convert], fun c u => by simp [unit_cost_in],
    fun x c u1 u2 h => ⟨by simp [convert, h], by simp [unit_cost_in, h]⟩⟩

/-- Witness for `convert_same_unit_identity` on the unsupported unit "FOO". -/
theorem convert_same_unit_identity_witness :
    convert 7 "FOO" "FOO" = .ok 7 ∧ unit_cost_in 3 "Foo" "Foo" = .ok 3 ∧
      (convert 7 "FOO" "foo" = .ok 7 ∧ unit_cost_in 3 "FOO" "foo" = .ok 3) :=
  ⟨convert_same_unit_identity.1 7 "FOO", convert_same_unit_identity.2.1 3 "Foo",
    convert_same_unit_identity.2.2 7 3 "FOO" "foo" (by decide)⟩

/-- Model of `InventoryItem` from app.py lines 43-47. -/
structure InventoryItem where
  name : String
  unit : String
  unit_cost : ℚ

/-- Model of `BatchIngredient` from app.py lines 60-69; the SQLAlchemy `item`
relationship is modelled by embedding the referenced inventory item. -/
structure BatchIngredient where
  item : InventoryItem
  qty : ℚ
  unit : String

/-- Model of `BatchIngredient.ext_cost` from app.py lines 67-69. -/
def BatchIngredient.ext_cost (ing : BatchIngredient) : Except String ℚ :=
  match unit_cost_in ing.item.unit_cost ing.item.unit ing.unit with
  | .error e => .error e
  | .ok c => .ok (c * ing.qty)

/-- Model of `BatchRecipe` from app.py lines 49-58: its only component lines are
inventory-ingredient lines (the model has no sub-batch line type). -/
structure BatchRecipe where
  name : String
  yield_qty : ℚ
  yield_unit : String
  notes : String
  ingredients : List BatchIngredient

/-- The Python builtin `sum` over a generator of fallible extended costs: the first
raised error propagates, otherwise the values are added. -/
def sumExcept : List (Except String ℚ) → Except String ℚ
  | [] => .ok 0
  | e :: rest =>
    match e with
    | .error msg => .error msg
    | .ok v =>
      match sumExcept rest with
      | .error msg => .error msg
      | .ok s => .ok (v + s)

/-- Model of `BatchRecipe.total_cost` from app.py lines 56-58: the sum of the
ingredient line extended costs. -/
def BatchRecipe.total_cost (b : BatchRecipe) : Except String ℚ :=
  sumExcept (b.ingredients.map BatchIngredient.ext_cost)

/-- Model of `MenuIngredient` from app.py lines 84-93. -/
structure MenuIngredient where
  item : InventoryItem
  qty : ℚ
  unit : String

/-- Model of `MenuIngredient.ext_cost` from app.py lines 91-93. -/
def MenuIngredient.ext_cost (c : MenuIngredient) : Except String ℚ :=
  match unit_cost_in c.item.unit_cost c.item.unit c.unit with
  | .error e => .error e
  | .ok v => .ok (v * c.qty)

/-- Model of `MenuBatchPortion` from app.py lines 95-107; the `batch` relationship is
modelled by embedding the referenced batch recipe. -/
structure MenuBatchPortion where
  batch : BatchRecipe
  portion_qty : ℚ
  portion_unit : String

/-- Model of `MenuBatchPortion.ext_cost` from app.py lines 102-107.  The Python
divisor `self.batch.yield_qty or 1.0` is `1.0` exactly when `yield_qty` is
zero, and `yield_qty` itself otherwise (negative floats are truthy). -/
def MenuBatchPortion.ext_cost (bp : MenuBatchPortion) : Except String ℚ :=
  if same_dimension bp.portion_unit bp.batch.yield_unit then
    match convert bp.portion_qty bp.portion_unit bp.batch.yield_unit with
    | .error e => .error e
    | .ok portion_in_yield_unit =>
      match bp.batch.total_cost with
      | .error e => .error e
      | .ok tc =>
        .ok (portion_in_yield_unit /
          (if bp.batch.yield_qty = 0 then 1 else bp.batch.yield_qty) * tc)
  else .error "Portion unit must match batch yield unit type (weight/volume)."

/-- Model of `MenuItem` from app.py lines 71-82. -/
structure MenuItem where
  name : String
  price : ℚ
  notes : String
  inv_components : List MenuIngredient
  batch_portions : List MenuBatchPortion

/-- Model of `MenuItem.cost` from app.py lines 78-82. -/
def MenuItem.cost (m : MenuItem) : Except String ℚ :=
  match sumExcept (m.inv_components.map MenuIngredient.ext_cost) with
  | .error e => .error e
  | .ok inv_cost =>
    match sumExcept (m.batch_portions.map MenuBatchPortion.ext_cost) with
    | .error e => .error e
    | .ok batch_cost => .ok (inv_cost + batch_cost)

/-- Summing a list of successful extended costs yields the sum of the values. -/
lemma sumExcept_map_ok (vs : List ℚ) : sumExcept (vs.map Except.ok) = .ok vs.sum := by
  induction vs with
  | nil => rfl
  | cons v rest ih => simp [sumExcept, ih, List.sum_cons]

/-- C9. The property `BatchRecipe.total_cost` reads nothing but the ingredient lines: two
batches with identical ingredient lines and arbitrarily different yield
quantity and yield unit have equal total cost. -/
theorem total_cost_independent_of_yield (nm ns : String) (q1 q2 : ℚ)
    (u1 u2 : String) (ings : List BatchIngredient) :
    BatchRecipe.total_cost ⟨nm, q1, u1, ns, ings⟩ =
      BatchRecipe.total_cost ⟨nm, q2, u2, ns, ings⟩ := rfl

/-- A one-ingredient batch used to test `total_cost`: one line of 10 g of an
item costing 1 per g, with yield quantity 2. -/
def exBatchC1 : BatchRecipe := ⟨"Dough", 2, "g", "", [⟨⟨"Flour", "g", 1⟩, 10, "g"⟩]⟩

/-- C1 counterexample: `total_cost` is the plain ingredient sum (10), not the
ingredient sum divided pro-rata by the batch yield (10 / 2). -/
theorem total_cost_not_prorated_by_yield :
    sumExcept (exBatchC1.ingredients.map BatchIngredient.ext_cost) = .ok 10 ∧
      exBatchC1.yield_qty = 2 ∧ exBatchC1.total_cost ≠ .ok (10 / 2) := by
  have hsum : sumExcept (exBatchC1.ingredients.map BatchIngredient.ext_cost) = .ok 10 := by
    simp [exBatchC1, BatchIngredient.ext_cost, unit_cost_in, sumExcept]
  have htc : exBatchC1.total_cost = .ok 10 := hsum
  refine ⟨hsum, rfl, ?_⟩
  rw [htc]
  intro hcontra
  injection hcontra with hv
  norm_num at hv

/-- C1 (amended). `total_cost` equals the sum of the ingredient line
extended costs; the data model has no sub-batch lines and applies no division
by yield. -/
theorem total_cost_eq_sum_of_ingredient_ext_costs (b : BatchRecipe) (vs : List ℚ)
    (h : b.ingredients.map BatchIngredient.ext_cost = vs.map Except.ok) :
    b.total_cost = .ok vs.sum := by
  simp [BatchRecipe.total_cost, h, sumExcept_map_ok]

/-- Witness for `total_cost_eq_sum_of_ingredient_ext_costs` on `exBatchC1`. -/
theorem total_cost_eq_sum_of_ingredient_ext_costs_witness :
    exBatchC1.total_cost = .ok ([(10 : ℚ)].sum) := by
  refine total_cost_eq_sum_of_ingredient_ext_costs exBatchC1 [10] ?_
  simp [exBatchC1, BatchIngredient.ext_cost, unit_cost_in]

/-- A zero-yield batch (total cost 10) and a 1 g portion of it. -/
def exPortionZ : MenuBatchPortion := ⟨⟨"ZeroYield", 0, "g", "", [⟨⟨"Stock", "g", 1⟩, 10, "g"⟩]⟩, 1, "g"⟩

/-- C3 counterexample: on a zero-yield batch the extended cost of the portion is
computed with divisor 1.0, so it is 10 — no error, but not zero either. -/
theorem zero_yield_portion_cost_not_zero :
    exPortionZ.ext_cost = .ok 10 ∧ (10 : ℚ) ≠ 0 := by
  have hsd : same_dimension "g" "g" = true := by decide
  constructor
  · simp [exPortionZ, MenuBatchPortion.ext_cost, BatchRecipe.total_cost,
      BatchIngredient.ext_cost, unit_cost_in, sumExcept, convert, hsd]
  · norm_num

/-- C3 (amended). With same-dimension units, a zero batch yield does not
raise: the divisor degrades to 1.0 and the contribution is the converted
portion times the batch total cost; a negative yield is itself used as the
divisor. -/
theorem zero_or_negative_yield_no_error :
    (∀ (bp : MenuBatchPortion) (v t : ℚ),
      same_dimension bp.portion_unit bp.batch.yield_unit = true →
      bp.batch.yield_qty = 0 →
      convert bp.portion_qty bp.portion_unit bp.batch.yield_unit = .ok v →
      bp.batch.total_cost = .ok t →
      bp.ext_cost = .ok (v * t)) ∧
    (∀ (bp : MenuBatchPortion) (v t : ℚ),
      same_dimension bp.portion_unit bp.batch.yield_unit = true →
      bp.batch.yield_qty < 0 →
      convert bp.portion_qty bp.portion_unit bp.batch.yield_unit = .ok v →
      bp.batch.total_cost = .ok t →
      bp.ext_cost = .ok (v / bp.batch.yield_qty * t)) := by
  constructor
  · intro bp v t hsd hq hcv htc
    simp [MenuBatchPortion.ext_cost, hsd, hcv, htc, hq]
  · intro bp v t hsd hq hcv htc
    have hne : bp.batch.yield_qty ≠ 0 := ne_of_lt hq
    simp [MenuBatchPortion.ext_cost, hsd, hcv, htc, hne]

/-- Witness for `zero_or_negative_yield_no_error` on the zero-yield portion. -/
theorem zero_or_negative_yield_no_error_witness :
    exPortionZ.ext_cost = .ok (1 * 10) := by
  have htc : exPortionZ.batch.total_cost = .ok 10 := by
    simp [exPortionZ, BatchRecipe.total_cost, BatchIngredient.ext_cost, unit_cost_in, sumExcept]
  have hcv : convert exPortionZ.portion_qty exPortionZ.portion_unit
      exPortionZ.batch.yield_unit = .ok 1 := by
    simp [exPortionZ, convert]
  exact zero_or_negative_yield_no_error.1 exPortionZ 1 10 (by decide) rfl hcv htc

/-- A zero-yield volume batch (total cost 20) and a 1 ml portion of it. -/
def exPortionF : MenuBatchPortion := ⟨⟨"Sauce", 0, "ml", "", [⟨⟨"Oil", "ml", 2⟩, 10, "ml"⟩]⟩, 1, "ml"⟩

/-- C4 counterexample: at zero batch yield the code divides by 1.0, so the
extended cost (20) differs from the claimed formula value
converted-portion ÷ yield-quantity × total-cost (which is 1 / 0 × 20). -/
theorem portion_formula_fails_at_zero_yield :
    same_dimension exPortionF.portion_unit exPortionF.batch.yield_unit = true ∧
      convert exPortionF.portion_qty exPortionF.portion_unit exPortionF.batch.yield_unit = .ok 1 ∧
      exPortionF.batch.total_cost = .ok 20 ∧
      exPortionF.ext_cost ≠ .ok (1 / exPortionF.batch.yield_qty * 20) := by
  have hsd : same_dimension "ml" "ml" = true := by decide
  have htc : exPortionF.batch.total_cost = .ok 20 := by
    simp [exPortionF, BatchRecipe.total_cost, BatchIngredient.ext_cost, unit_cost_in, sumExcept]
    norm_num
  have hcv : convert exPortionF.portion_qty exPortionF.portion_unit
      exPortionF.batch.yield_unit = .ok 1 := by
    simp [exPortionF, convert]
  refine ⟨hsd, hcv, htc, ?_⟩
  have hext : exPortionF.ext_cost = .ok 20 := by
    simp [exPortionF, MenuBatchPortion.ext_cost, BatchRecipe.total_cost,
      BatchIngredient.ext_cost, unit_cost_in, sumExcept, convert, hsd]
    norm_num
  rw [hext]
  intro hcontra
  injection hcontra with hv
  rw [show exPortionF.batch.yield_qty = 0 from rfl] at hv
  norm_num at hv

/-- C4 (amended). With same-dimension units and a nonzero batch yield, the
extended cost of the portion is converted-portion ÷ yield-quantity × total-cost;
with units of different dimensions it raises. -/
theorem portion_ext_cost_formula :
    (∀ (bp : MenuBatchPortion) (v t : ℚ),
      same_dimension bp.portion_unit bp.batch.yield_unit = true →
      bp.batch.yield_qty ≠ 0 →
      convert bp.portion_qty bp.portion_unit bp.batch.yield_unit = .ok v →
      bp.batch.total_cost = .ok t →
      bp.ext_cost = .ok (v / bp.batch.yield_qty * t)) ∧
    (∀ bp : MenuBatchPortion,
      same_dimension bp.portion_unit bp.batch.yield_unit = false →
      bp.ext_cost = .error "Portion unit must match batch yield unit type (weight/volume).") := by
  constructor
  · intro bp v t hsd hq hcv htc
    simp [MenuBatchPortion.ext_cost, hsd, hcv, htc, hq]
  · intro bp hsd
    simp [MenuBatchPortion.ext_cost, hsd]

/-- A yield-4 batch (total cost 6) with a 2 g portion and an ml portion. -/
def exBatchG : BatchRecipe := ⟨"Mix", 4, "g", "", [⟨⟨"Sugar", "g", 3⟩, 2, "g"⟩]⟩

/-- A same-dimension portion of `exBatchG`. -/
def exPortionG : MenuBatchPortion := ⟨exBatchG, 2, "g"⟩

/-- A cross-dimension portion of `exBatchG`. -/
def exPortionX : MenuBatchPortion := ⟨exBatchG, 2, "ml"⟩

/-- Witness for `portion_ext_cost_formula`: both the nonzero-yield formula and
the dimension-mismatch error at concrete inputs. -/
theorem portion_ext_cost_formula_witness :
    exPortionG.ext_cost = .ok (2 / 4 * 6) ∧
      exPortionX.ext_cost =
        .error "Portion unit must match batch yield unit type (weight/volume)." := by
  have htc : exPortionG.batch.total_cost = .ok 6 := by
    simp [exPortionG, exBatchG, BatchRecipe.total_cost, BatchIngredient.ext_cost,
      unit_cost_in, sumExcept]
    norm_num
  have hcv : convert exPortionG.portion_qty exPortionG.portion_unit
      exPortionG.batch.yield_unit = .ok 2 := by
    simp [exPortionG, exBatchG, convert]
  exact ⟨portion_ext_cost_formula.1 exPortionG 2 6 (by decide) (by norm_num [exPortionG, exBatchG]) hcv htc,
    portion_ext_cost_formula.2 exPortionX (by decide)⟩

/-- C5. The property `MenuItem.cost` is the sum of the inventory line extended costs plus
the batch-portion line extended costs, and an inventory line extended
cost is `unit_cost_in(item cost, item unit, line unit) * qty`. -/
theorem menu_cost_eq_sum_of_components :
    (∀ (m : MenuItem) (invs bps : List ℚ),
      m.inv_components.map MenuIngredient.ext_cost = invs.map Except.ok →
      m.batch_portions.map MenuBatchPortion.ext_cost = bps.map Except.ok →
      m.cost = .ok (invs.sum + bps.sum)) ∧
    (∀ (c : MenuIngredient) (v : ℚ),
      unit_cost_in c.item.unit_cost c.item.unit c.unit = .ok v →
      c.ext_cost = .ok (v * c.qty)) := by
  constructor
  · intro m invs bps hinv hbp
    simp [MenuItem.cost, hinv, hbp, sumExcept_map_ok]
  · intro c v h
    simp [MenuIngredient.ext_cost, h]

/-- A menu item with one inventory line (3 g of an item costing 2 per g). -/
def exMenu : MenuItem := ⟨"Plate", 10, "", [⟨⟨"Rice", "g", 2⟩, 3, "g"⟩], []⟩

/-- Witness for `menu_cost_eq_sum_of_components` on `exMenu`. -/
theorem menu_cost_eq_sum_of_components_witness :
    exMenu.cost = .ok (([(6 : ℚ)].sum) + (([] : List ℚ).sum)) ∧
      MenuIngredient.ext_cost ⟨⟨"Rice", "g", 2⟩, 3, "g"⟩ = .ok (2 * 3) := by
  constructor
  · refine menu_cost_eq_sum_of_components.1 exMenu [6] [] ?_ rfl
    simp [exMenu, MenuIngredient.ext_cost, unit_cost_in]
    norm_num
  · exact menu_cost_eq_sum_of_components.2 ⟨⟨"Rice", "g", 2⟩, 3, "g"⟩ 2
      (by simp [unit_cost_in])

/-- Modelled from the spec: the repository code has no sub-batch model
(`BatchSubBatch` and its edge-insertion route are absent from the source), so
the directed sub-batch graph over batches is represented by a list of
(parent batch id, child batch id) edges. -/
def subBatchEdgeRel (es : List (Nat × Nat)) (a b : Nat) : Prop := (a, b) ∈ es

/-- A sub-batch graph is acyclic when no batch reaches itself through at
least one edge. -/
def Acyclic (es : List (Nat × Nat)) : Prop :=
  ∀ x, ¬ Relation.TransGen (subBatchEdgeRel es) x x

/-- Modelled from the spec: fuel-bounded depth-first search for a path from
`src` to `dst`; each traversed edge is removed before recursing, so fuel
`es.length + 1` suffices. -/
def reachF : Nat → List (Nat × Nat) → Nat → Nat → Bool
  | 0, _, _, _ => false
  | fuel + 1, es, src, dst =>
    src == dst ||
      es.any fun e => e.1 == src && reachF fuel (es.filter (fun d => d != e)) e.2 dst

/-- Modelled from the spec: reachability in the sub-batch graph. -/
def reach (es : List (Nat × Nat)) (src dst : Nat) : Bool :=
  reachF (es.length + 1) es src dst

/-- Modelled from the spec: inserting a sub-batch edge is rejected when the
child already reaches the parent (directly, transitively, or when child =
parent), since the new edge would close a cycle; otherwise the edge is
added. -/
def add_sub_batch_edge (es : List (Nat × Nat)) (parent child : Nat) :
    Except String (List (Nat × Nat)) :=
  if reach es child parent then .error "Cycle in sub-batch graph"
  else .ok ((parent, child) :: es)

/-- Removing all copies of a present edge strictly shrinks the edge list. -/
lemma length_filter_ne_lt {es : List (Nat × Nat)} {e : Nat × Nat} (h : e ∈ es) :
    (es.filter (fun d => d != e)).length < es.length := by
  induction es with
  | nil => cases h
  | cons a t ih =>
    by_cases hae : a = e
    · subst hae
      simp only [List.filter_cons, bne_self_eq_false, Bool.false_eq_true, if_false]
      exact Nat.lt_succ_of_le (List.length_filter_le _ _)
    · rcases List.mem_cons.mp h with h' | h'
      · exact absurd h'.symm hae
      · simp only [List.filter_cons, bne_iff_ne, ne_eq, hae, not_false_eq_true, if_true,
          List.length_cons]
        exact Nat.succ_lt_succ (ih h')

/-- Dropping the edge (s, y) from the graph preserves any path to `d`, except
that the path may now have to start at `y`, the target of the dropped edge. -/
lemma reflTransGen_drop_edge {es : List (Nat × Nat)} {s y d a : Nat}
    (h : Relation.ReflTransGen (subBatchEdgeRel es) a d) :
    Relation.ReflTransGen (subBatchEdgeRel (es.filter (fun x => x != (s, y)))) a d ∨
      Relation.ReflTransGen (subBatchEdgeRel (es.filter (fun x => x != (s, y)))) y d := by
  induction h using Relation.ReflTransGen.head_induction_on with
  | refl => exact Or.inl .refl
  | head h' hrest ih =>
    rename_i c c'
    by_cases he : (c, c') = (s, y)
    · injection he with hs hy
      rcases ih with ih | ih
      · exact Or.inr (hy ▸ ih)
      · exact Or.inr ih
    · have hmem : subBatchEdgeRel (es.filter (fun x => x != (s, y))) c c' := by
        simp only [subBatchEdgeRel, List.mem_filter, bne_iff_ne, ne_eq]
        exact ⟨h', by simpa using he⟩
      rcases ih with ih | ih
      · exact Or.inl (Relation.ReflTransGen.head hmem ih)
      · exact Or.inr ih

/-- The fuel-bounded search finds every transitively reachable target once
the fuel exceeds the number of edges. -/
lemma reachF_complete : ∀ (fuel : Nat) (es : List (Nat × Nat)) (s d : Nat),
    es.length < fuel → Relation.ReflTransGen (subBatchEdgeRel es) s d →
    reachF fuel es s d = true := by
  intro fuel
  induction fuel with
  | zero => exact fun es s d h _ => absurd h (Nat.not_lt_zero _)
  | succ n ih =>
    intro es s d hlen hpath
    rcases Relation.ReflTransGen.cases_head hpath with heq | ⟨c, hedge, hrest⟩
    · subst heq
      simp [reachF]
    · have hrtg : Relation.ReflTransGen
          (subBatchEdgeRel (es.filter (fun x => x != (s, c)))) c d := by
        rcases reflTransGen_drop_edge hrest with h | h <;> exact h
      have hlt : (es.filter (fun x => x != (s, c))).length < n := by
        have := length_filter_ne_lt hedge
        omega
      have hr := ih _ c d hlt hrtg
      simp only [reachF, List.any_eq_true, Bool.or_eq_true, beq_iff_eq, Bool.and_eq_true]
      exact Or.inr ⟨(s, c), hedge, rfl, hr⟩

/-- Adding the edge (p, c) does not create paths except those that enter it:
a path in the extended graph either avoids the new edge, or splits into a
path to `p` followed by a path of the extended graph from `c`. -/
lemma reflTransGen_cons_edge {es : List (Nat × Nat)} {p c a b : Nat}
    (h : Relation.ReflTransGen (subBatchEdgeRel ((p, c) :: es)) a b) :
    Relation.ReflTransGen (subBatchEdgeRel es) a b ∨
      (Relation.ReflTransGen (subBatchEdgeRel es) a p ∧
        Relation.ReflTransGen (subBatchEdgeRel ((p, c) :: es)) c b) := by
  induction h using Relation.ReflTransGen.head_induction_on with
  | refl => exact Or.inl .refl
  | head h' hrest ih =>
    rename_i x z
    rcases List.mem_cons.mp h' with he | hmem
    · injection he with hx hz
      exact Or.inr ⟨hx ▸ Relation.ReflTransGen.refl, hz ▸ hrest⟩
    · rcases ih with ih | ⟨ih1, ih2⟩
      · exact Or.inl (Relation.ReflTransGen.head hmem ih)
      · exact Or.inr ⟨Relation.ReflTransGen.head hmem ih1, ih2⟩

/-- Inserting an edge whose child does not already reach the parent keeps an
acyclic graph acyclic. -/
lemma acyclic_cons {es : List (Nat × Nat)} {p c : Nat}
    (hacy : Acyclic es) (hnr : ¬ Relation.ReflTransGen (subBatchEdgeRel es) c p) :
    Acyclic ((p, c) :: es) := by
  intro x hcyc
  cases hcyc with
  | single h1 =>
    rcases List.mem_cons.mp h1 with he | hmem
    · injection he with hx hx'
      exact hnr (hx' ▸ hx ▸ Relation.ReflTransGen.refl)
    · exact hacy x (Relation.TransGen.single hmem)
  | tail htrans hlast =>
    rename_i y
    have hxy : Relation.ReflTransGen (subBatchEdgeRel ((p, c) :: es)) x y :=
      htrans.to_reflTransGen
    rcases List.mem_cons.mp hlast with he | hmem
    · injection he with hy hx
      subst hy
      subst hx
      rcases reflTransGen_cons_edge hxy with h | ⟨h, _⟩ <;> exact hnr h
    · rcases reflTransGen_cons_edge hxy with h | ⟨h1, h2⟩
      · exact hacy x (Relation.TransGen.tail' h hmem)
      · rcases reflTransGen_cons_edge h2 with hcy | ⟨hcp, _⟩
        · exact hnr (hcy.trans (Relation.ReflTransGen.head hmem h1))
        · exact hnr hcp

/-- C2. Modelled from the spec: inserting a sub-batch edge whose child
already reaches the parent (so the edge would close a cycle) is rejected at
write time, and any accepted insertion into an acyclic sub-batch graph
leaves the graph acyclic. -/
theorem add_sub_batch_edge_safe :
    (∀ (es : List (Nat × Nat)) (p c : Nat),
      Relation.ReflTransGen (subBatchEdgeRel es) c p →
      add_sub_batch_edge es p c = .error "Cycle in sub-batch graph") ∧
    (∀ (es es' : List (Nat × Nat)) (p c : Nat),
      Acyclic es → add_sub_batch_edge es p c = .ok es' → Acyclic es') := by
  constructor
  · intro es p c hpath
    have hr : reach es c p = true :=
      reachF_complete _ es c p (Nat.lt_succ_self _) hpath
    simp [add_sub_batch_edge, hr]
  · intro es es' p c hacy hok
    by_cases hr : reach es c p = true
    · simp [add_sub_batch_edge, hr] at hok
    · have hnr : ¬ Relation.ReflTransGen (subBatchEdgeRel es) c p := fun hp =>
        hr (reachF_complete _ es c p (Nat.lt_succ_self _) hp)
      have hes' : es' = (p, c) :: es := by
        simp [add_sub_batch_edge, hr] at hok
        exact hok.symm
      subst hes'
      exact acyclic_cons hacy hnr

/-- Witness for `add_sub_batch_edge_safe`: on the graph with edge 1 → 2,
inserting parent 2 / child 1 is rejected; inserting 1 → 2 into the empty
graph is accepted and the result is acyclic. -/
theorem add_sub_batch_edge_safe_witness :
    add_sub_batch_edge [(1, 2)] 2 1 = .error "Cycle in sub-batch graph" ∧
      add_sub_batch_edge [] 1 2 = .ok [(1, 2)] ∧ Acyclic [(1, 2)] := by
  have hpath : Relation.ReflTransGen (subBatchEdgeRel [(1, 2)]) 1 2 :=
    Relation.ReflTransGen.single (by simp [subBatchEdgeRel])
  have hnil : Acyclic ([] : List (Nat × Nat)) := by
    intro x h
    cases h with
    | single h1 => simp [subBatchEdgeRel] at h1
    | tail h1 h2 => simp [subBatchEdgeRel] at h2
  have hok : add_sub_batch_edge [] 1 2 = .ok [(1, 2)] := by decide
  exact ⟨add_sub_batch_edge_safe.1 [(1, 2)] 2 1 hpath, hok,
    add_sub_batch_edge_safe.2 [] [(1, 2)] 1 2 hnil hok⟩
